import Mathlib

/-!
Shallow embedding of the Firefox-mailtracker backend
(`src/backend/server.js`) and verification of its specification claims.

Modelling conventions:
* Timestamps (`new Date().toISOString()`, `Date.now()`) are modelled as
  integers (milliseconds); ISO-8601 strings of a single clock compare
  exactly like the underlying instants.
* Each append-only log file is modelled as its list of lines: the server
  only ever appends `JSON.stringify(record) + "\n"` (one line, no inner
  newline), truncates the file to empty, or splits the whole content on
  `"\n"`, so the file content is determined by the line list.  Corrupt or
  blank lines are arbitrary string elements of that list.
* `JSON.stringify` / `JSON.parse` are external library functions; handlers
  are parameterised by an encoding function, and `loadData` by a partial
  parsing function (`String → Option R`, `none` for a parse failure),
  exactly mirroring the `try { JSON.parse } catch { null }` in the source.
* JavaScript truthiness: `!s` for a string is `s` missing or `""`;
  `x || d` for a number is `d` when `x` is `NaN` or `0`.  These are spelled
  out at each use site.
* `fs` failures: appends catch their own errors (`saveTrackedEmail`,
  `saveOpenedEmail`), while `DELETE /api/clear` awaits two `fs.writeFile`
  truncations inside its `try`; the clear handler therefore takes two
  success flags, one per truncation.
-/

namespace MailTracker

/-- Request body of `POST /api/track` (`trackingData`).  `id` is `Option`
because the body may lack it (`!trackingData.id`); an absent body behaves
like an absent `id`. -/
structure TrackInput where
  id : Option String
  recipient : Option String
  sentAt : Option Int
deriving DecidableEq, Repr

/-- A stored sent record: the request body plus the server-stamped
`serverTimestamp` and `clientIP` (server.js lines 182-183). -/
structure SentRecord where
  id : String
  recipient : Option String
  sentAt : Option Int
  serverTimestamp : Int
  clientIP : String
deriving DecidableEq, Repr

/-- The selected request headers copied into an open record
(server.js lines 222-226). -/
structure OpenHeaders where
  accept : Option String
  acceptLanguage : Option String
  acceptEncoding : Option String
deriving DecidableEq, Repr

/-- A stored open record (`openData`, server.js lines 215-227). -/
structure OpenRecord where
  trackingId : String
  recipient : Option String
  openedAt : Int
  userAgent : String
  ipAddress : String
  referer : String
  headers : OpenHeaders
deriving DecidableEq, Repr

/-- The server's mutable state: the two in-memory views (`trackedEmails`,
`openedEmails`, server.js lines 57-58) and the two log files
(`tracked_emails.txt`, `opened_emails.txt`) as lists of lines. -/
structure ServerState where
  trackedEmails : List SentRecord
  openedEmails : List OpenRecord
  sentFile : List String
  openFile : List String
deriving DecidableEq, Repr

/-- JavaScript `x || d` for an optional string: `d` when the string is
absent or empty (falsy), `x` otherwise. -/
def jsOrString (x : Option String) (d : String) : String :=
  match x with
  | none => d
  | some v => if v = "" then d else v

/-- Response of `POST /api/track`: `{success: true, trackingId}` or the
400 `Invalid tracking data` rejection. -/
inductive TrackResponse where
  | ok (trackingId : String)
  | invalidInput
deriving DecidableEq, Repr

/-- Handler of `POST /api/track` (server.js lines 173-199): reject with 400 when the
body has no (or an empty) `id`; otherwise stamp `serverTimestamp` and
`clientIP`, push onto the `trackedEmails` view, append one serialized line
to the sent log, and answer with the tracking id.  `encodeSent` stands for
`JSON.stringify`. -/
def recordSent (encodeSent : SentRecord → String) (now : Int) (clientIP : String)
    (input : TrackInput) (s : ServerState) : ServerState × TrackResponse :=
  match input.id with
  | none => (s, TrackResponse.invalidInput)
  | some i =>
    if i = "" then (s, TrackResponse.invalidInput)
    else
      let trackingData : SentRecord :=
        { id := i, recipient := input.recipient, sentAt := input.sentAt,
          serverTimestamp := now, clientIP := clientIP }
      ({ s with trackedEmails := s.trackedEmails ++ [trackingData],
                sentFile := s.sentFile ++ [encodeSent trackingData] },
       TrackResponse.ok i)

/-- What the pixel handler did internally; never visible to the caller. -/
inductive OpenOutcome where
  | recordedNew
  | duplicate
  | unknownId
deriving DecidableEq, Repr

/-- The HTTP response of the pixel endpoint, reduced to the parts the
claims mention: content type, the cache-control header (absent on the
catch path), and the body. -/
structure PixelResponse where
  contentType : String
  cacheControl : Option String
  body : String
deriving DecidableEq, Repr

/-- The base64 text of the fixed 1x1 transparent GIF (server.js line 256);
the body bytes are its decoding, so equal base64 text means equal body. -/
def pixelBody : String :=
  "R0lGODlhAQABAIAAAAAAAP///yH5BAEAAAAALAAAAAABAAEAAAIBRAA7"

/-- The response built on the normal path (server.js lines 255-269). -/
def pixelResponse : PixelResponse :=
  { contentType := "image/gif",
    cacheControl := some "no-cache, no-store, must-revalidate",
    body := pixelBody }

/-- The response built on the catch path (server.js lines 275-285): same
pixel, fewer headers. -/
def errorPixelResponse : PixelResponse :=
  { contentType := "image/gif", cacheControl := none, body := pixelBody }

/-- The request data consumed by `GET /track/:trackingId`: the path
parameter and the optional headers. -/
structure OpenRequest where
  trackingId : String
  userAgent : Option String
  referer : Option String
  accept : Option String
  acceptLanguage : Option String
  acceptEncoding : Option String
deriving DecidableEq, Repr

/-- The `openData` record built by the pixel handler on a tracked-email
hit (server.js lines 215-227). -/
def openDataOf (now : Int) (clientIP : String) (req : OpenRequest)
    (trackedEmail : SentRecord) : OpenRecord :=
  { trackingId := req.trackingId,
    recipient := trackedEmail.recipient,
    openedAt := now,
    userAgent := jsOrString req.userAgent "Unknown",
    ipAddress := clientIP,
    referer := jsOrString req.referer "Unknown",
    headers := { accept := req.accept, acceptLanguage := req.acceptLanguage,
                 acceptEncoding := req.acceptEncoding } }

/-- Handler of `GET /track/:trackingId` (server.js lines 202-287): look
the id up in the tracked view; if found, build `openData`, and unless an
open with the same `(trackingId, ipAddress)` pair already exists, push it
onto the `openedEmails` view and append it to the open log; in every case
answer with the fixed pixel.  `encodeOpen` stands for `JSON.stringify`. -/
def trackPixel (encodeOpen : OpenRecord → String) (now : Int) (clientIP : String)
    (req : OpenRequest) (s : ServerState) : ServerState × OpenOutcome × PixelResponse :=
  match s.trackedEmails.find? (fun e => e.id == req.trackingId) with
  | some trackedEmail =>
    let openData : OpenRecord := openDataOf now clientIP req trackedEmail
    match s.openedEmails.find? (fun e => e.trackingId == req.trackingId && e.ipAddress == clientIP) with
    | some _ => (s, OpenOutcome.duplicate, pixelResponse)
    | none =>
      ({ s with openedEmails := s.openedEmails ++ [openData],
                openFile := s.openFile ++ [encodeOpen openData] },
       OpenOutcome.recordedNew, pixelResponse)
  | none => (s, OpenOutcome.unknownId, pixelResponse)

/-- JavaScript `String.prototype.trim`: strip leading and trailing
whitespace. -/
def jsTrim (s : String) : String :=
  String.mk
    (((s.data.dropWhile Char.isWhitespace).reverse.dropWhile
      Char.isWhitespace).reverse)

/-- One log file's load (server.js lines 81-87 and 96-102):
`content.split('\n')`, keep lines with truthy (nonempty) `line.trim()`,
parse each line, keep the non-null results, in order. -/
def loadData {R : Type} (parse : String → Option R) (lines : List String) : List R :=
  (((lines.filter (fun line => !(jsTrim line == ""))).map parse).filter
    (fun item => !item.isNone)).reduceOption

/-- Startup load of both files into a fresh state (server.js lines 76-110). -/
def loadServerState (parseSent : String → Option SentRecord)
    (parseOpen : String → Option OpenRecord)
    (sentLines openLines : List String) : ServerState :=
  { trackedEmails := loadData parseSent sentLines,
    openedEmails := loadData parseOpen openLines,
    sentFile := sentLines,
    openFile := openLines }

/-- JavaScript `Number.prototype.toFixed(2)`, modelled on exact rationals:
round to the nearest multiple of 1/100 (the handful of doubles lying
exactly on a representation boundary aside, this is what `toFixed`
prints). -/
def toFixed2 (x : ℚ) : ℚ := (round (x * 100) : ℤ) / 100

/-- The payload of `GET /api/stats` (server.js lines 318-339), without the
process-level `serverUptime`/`timestamp` fields.  `openRate` carries the
numeric value of the source's string `(rate).toFixed(2)` (and the plain
number `0` when nothing was tracked). -/
structure StatsPayload where
  totalTracked : Nat
  totalOpened : Nat
  uniqueOpened : Nat
  openRate : ℚ
  recentOpens : Nat
deriving DecidableEq, Repr

/-- Handler of `GET /api/stats` (server.js lines 318-339): `uniqueOpens` is the size
of the `Set` of tracking ids among `openedEmails`. -/
def statsOf (now : Int) (s : ServerState) : StatsPayload :=
  let uniqueOpens := ((s.openedEmails.map (fun e => e.trackingId)).dedup).length
  { totalTracked := s.trackedEmails.length,
    totalOpened := s.openedEmails.length,
    uniqueOpened := uniqueOpens,
    openRate :=
      if 0 < s.trackedEmails.length then
        toFixed2 ((uniqueOpens : ℚ) / (s.trackedEmails.length : ℚ) * 100)
      else 0,
    recentOpens :=
      (s.openedEmails.filter
        (fun e => now - 24 * 60 * 60 * 1000 < e.openedAt)).length }

/-- One per-message entry of `GET /api/report` (server.js lines 354-368). -/
structure ReportEntry where
  id : String
  recipient : Option String
  sentAt : Option Int
  opened : Bool
  openCount : Nat
  firstOpenedAt : Option Int
  lastOpenedAt : Option Int
  openedFrom : Option String
deriving DecidableEq, Repr

/-- The per-message report for one tracked email (server.js lines
354-367): `opens` is the filter of `openedEmails` by `trackingId ==
email.id`; `firstOpen` is `opens[0]` and `lastOpenedAt` comes from
`opens[opens.length - 1]` (`null` when there are no opens). -/
def reportEntry (s : ServerState) (email : SentRecord) : ReportEntry :=
  let opens := s.openedEmails.filter (fun opened => opened.trackingId == email.id)
  { id := email.id,
    recipient := email.recipient,
    sentAt := email.sentAt,
    opened := decide (0 < opens.length),
    openCount := opens.length,
    firstOpenedAt := opens.head?.map (fun o => o.openedAt),
    lastOpenedAt := opens.getLast?.map (fun o => o.openedAt),
    openedFrom := opens.head?.map (fun o => o.userAgent) }

/-- The `trackedEmails` section of `GET /api/report` (server.js line 354). -/
def reportEntries (s : ServerState) : List ReportEntry :=
  s.trackedEmails.map (reportEntry s)

/-- The `recentActivity` section of `GET /api/report` (server.js line 369):
`openedEmails.slice(-20).reverse()`. -/
def recentActivity (s : ServerState) : List OpenRecord :=
  ((s.openedEmails.drop (s.openedEmails.length - 20))).reverse

/-- JS `parseInt(req.query.hours) || 24`: `hoursParam` is the `parseInt`
result (`none` for `NaN`, i.e. an absent or non-numeric parameter), and a
parsed `0` is falsy, so it also falls back to 24. -/
def effectiveHours (hoursParam : Option Int) : Int :=
  match hoursParam with
  | none => 24
  | some n => if n = 0 then 24 else n

/-- Handler of `GET /api/opens` (server.js lines 290-305): keep the opens whose
`openedAt` is strictly later than `now - hours * 60 * 60 * 1000`. -/
def getRecentOpens (now : Int) (hoursParam : Option Int) (s : ServerState) :
    List OpenRecord :=
  let timeAgo := now - effectiveHours hoursParam * 60 * 60 * 1000
  s.openedEmails.filter (fun email => timeAgo < email.openedAt)

/-- Response of `DELETE /api/clear`. -/
inductive ClearResponse where
  | success
  | unauthorized
  | error
deriving DecidableEq, Repr

/-- The bearer token accepted by `DELETE /api/clear` in production. -/
def clearSecret : String := "Bearer clear-data-secret"

/-- The auth check of server.js line 385:
`!authHeader || authHeader !== 'Bearer clear-data-secret'` (an empty
header string is falsy). -/
def badAuth (authHeader : Option String) : Bool :=
  match authHeader with
  | none => true
  | some h => h = "" || h ≠ clearSecret

/-- Handler of `DELETE /api/clear` (server.js lines 380-401): in production a missing
or wrong bearer token is rejected with 401; otherwise both in-memory views
are reset to `[]` and then the two log files are truncated in turn by
`fs.writeFile(file, '')`.  `sentTruncOk` / `openTruncOk` say whether each
`writeFile` succeeds; a failure jumps to the catch branch (500), after the
views were already emptied and before any later truncation runs. -/
def clearAll (nodeEnv : String) (authHeader : Option String)
    (sentTruncOk openTruncOk : Bool) (s : ServerState) :
    ServerState × ClearResponse :=
  if nodeEnv = "production" && badAuth authHeader then
    (s, ClearResponse.unauthorized)
  else
    let s1 := { s with trackedEmails := ([] : List SentRecord),
                       openedEmails := ([] : List OpenRecord) }
    if sentTruncOk then
      let s2 := { s1 with sentFile := ([] : List String) }
      if openTruncOk then
        ({ s2 with openFile := ([] : List String) }, ClearResponse.success)
      else (s2, ClearResponse.error)
    else (s1, ClearResponse.error)

/-! Reduction lemmas for the three control-flow branches of the pixel
handler. -/

/-- Unknown tracking id: the handler changes nothing. -/
lemma trackPixel_unknown (encodeOpen : OpenRecord → String) (now : Int)
    (clientIP : String) (req : OpenRequest) (s : ServerState)
    (hfind : s.trackedEmails.find? (fun e => e.id == req.trackingId) = none) :
    trackPixel encodeOpen now clientIP req s =
      (s, OpenOutcome.unknownId, pixelResponse) := by
  unfold trackPixel
  rw [hfind]

/-- Known tracking id, no previous open from this IP: the open is pushed
onto the view and appended to the log. -/
lemma trackPixel_new (encodeOpen : OpenRecord → String) (now : Int)
    (clientIP : String) (req : OpenRequest) (s : ServerState)
    (trackedEmail : SentRecord)
    (hfind : s.trackedEmails.find? (fun e => e.id == req.trackingId)
      = some trackedEmail)
    (hdup : s.openedEmails.find?
        (fun e => e.trackingId == req.trackingId && e.ipAddress == clientIP)
      = none) :
    trackPixel encodeOpen now clientIP req s =
      ({ s with
          openedEmails :=
            s.openedEmails ++ [openDataOf now clientIP req trackedEmail],
          openFile :=
            s.openFile ++ [encodeOpen (openDataOf now clientIP req trackedEmail)] },
       OpenOutcome.recordedNew, pixelResponse) := by
  unfold trackPixel
  rw [hfind]
  simp only [hdup]

/-- Known tracking id with an existing open for the same
`(trackingId, ipAddress)` pair: the handler changes nothing. -/
lemma trackPixel_duplicate (encodeOpen : OpenRecord → String) (now : Int)
    (clientIP : String) (req : OpenRequest) (s : ServerState)
    (trackedEmail : SentRecord) (old : OpenRecord)
    (hfind : s.trackedEmails.find? (fun e => e.id == req.trackingId)
      = some trackedEmail)
    (hdup : s.openedEmails.find?
        (fun e => e.trackingId == req.trackingId && e.ipAddress == clientIP)
      = some old) :
    trackPixel encodeOpen now clientIP req s =
      (s, OpenOutcome.duplicate, pixelResponse) := by
  unfold trackPixel
  rw [hfind]
  simp only [hdup]

/-- A tracking-pixel request with an unknown id, used as the concrete
input of the C1 analysis. -/
def reqX : OpenRequest :=
  { trackingId := "x", userAgent := none, referer := none,
    accept := none, acceptLanguage := none, acceptEncoding := none }

/-- The freshly started server: both views and both files empty. -/
def emptyState : ServerState :=
  { trackedEmails := [], openedEmails := [], sentFile := [], openFile := [] }

/-- C1, counterexample.  The claim says an open whose `trackingId` matches
no stored sent record is still stored in the open view and open log.  On
the empty store (where `"x"` matches no sent record) the handler stores
nothing at all: both the open view and the open log stay empty, refuting
the claim at this input. -/
theorem c1_counterexample :
    emptyState.trackedEmails = [] ∧
    (trackPixel (fun _ => "line") 0 "1.1.1.1" reqX emptyState).1.openedEmails = [] ∧
    (trackPixel (fun _ => "line") 0 "1.1.1.1" reqX emptyState).1.openFile = [] :=
  ⟨rfl, rfl, rfl⟩

/-- C1, amended: for every open-path request whose trackingId does not
match any stored SentRecord's id, the open event is NOT stored — the
state (open view and open log included) is unchanged, the internal
outcome is `unknownId`, and only the fixed pixel is returned. -/
theorem c1_unknown_id_not_recorded (encodeOpen : OpenRecord → String)
    (now : Int) (clientIP : String) (req : OpenRequest) (s : ServerState)
    (h : ∀ e ∈ s.trackedEmails, e.id ≠ req.trackingId) :
    trackPixel encodeOpen now clientIP req s =
      (s, OpenOutcome.unknownId, pixelResponse) := by
  apply trackPixel_unknown
  rw [List.find?_eq_none]
  intro e he
  simpa using h e he

/-- C1, witness: the amended theorem applied at the concrete unknown-id
request on the empty store. -/
theorem c1_witness :
    trackPixel (fun _ => "line") 0 "1.1.1.1" reqX emptyState =
      (emptyState, OpenOutcome.unknownId, pixelResponse) :=
  c1_unknown_id_not_recorded (fun _ => "line") 0 "1.1.1.1" reqX emptyState
    (by simp [emptyState])

/-- C3: every open-path request receives the same fixed 1x1 GIF pixel —
whether the open was newly recorded, rejected as a duplicate, or the
trackingId was unknown — and the catch-path response carries the very
same pixel body and content type, so recording failure is never visible
to the remote party. -/
theorem c3_pixel_always_returned (encodeOpen : OpenRecord → String)
    (now : Int) (clientIP : String) (req : OpenRequest) (s : ServerState) :
    (trackPixel encodeOpen now clientIP req s).2.2 = pixelResponse ∧
    pixelResponse.body = pixelBody ∧
    errorPixelResponse.body = pixelBody ∧
    errorPixelResponse.contentType = pixelResponse.contentType := by
  refine ⟨?_, rfl, rfl, rfl⟩
  unfold trackPixel
  cases hfind : s.trackedEmails.find? (fun e => e.id == req.trackingId) with
  | none => rfl
  | some trackedEmail =>
    cases hdup : s.openedEmails.find?
        (fun e => e.trackingId == req.trackingId && e.ipAddress == clientIP) with
    | none => rfl
    | some _ => rfl

/-- C7: `recordSent` rejects with the client-error `InvalidInput`
response exactly when the input's `id` is missing or empty, and a
rejection leaves the store untouched; otherwise it stamps the server
timestamp and the client IP onto the record, appends it to the sent log,
adds it to the in-memory sent view, and returns the assigned id. -/
theorem c7_recordSent_spec (encodeSent : SentRecord → String) (now : Int)
    (clientIP : String) (input : TrackInput) (s : ServerState) :
    ((recordSent encodeSent now clientIP input s).2 = TrackResponse.invalidInput
      ↔ (input.id = none ∨ input.id = some "")) ∧
    (input.id = none ∨ input.id = some "" →
      (recordSent encodeSent now clientIP input s).1 = s) ∧
    (∀ i, input.id = some i → i ≠ "" →
      recordSent encodeSent now clientIP input s =
        ({ s with
            trackedEmails := s.trackedEmails ++
              [⟨i, input.recipient, input.sentAt, now, clientIP⟩],
            sentFile := s.sentFile ++
              [encodeSent ⟨i, input.recipient, input.sentAt, now, clientIP⟩] },
         TrackResponse.ok i)) := by
  refine ⟨?_, ?_, ?_⟩
  · cases hid : input.id with
    | none => simp [recordSent, hid]
    | some i =>
      by_cases hi : i = "" <;> simp [recordSent, hid, hi]
  · rintro (hid | hid) <;> simp [recordSent, hid]
  · intro i hid hi
    simp [recordSent, hid, hi]

/-- C7, witness: one rejected and one accepted concrete ingestion,
obtained from the C7 theorem. -/
theorem c7_witness :
    (recordSent (fun _ => "line") 5 "9.9.9.9"
        ⟨none, none, none⟩ emptyState).2 = TrackResponse.invalidInput ∧
    recordSent (fun _ => "line") 5 "9.9.9.9"
        ⟨some "a", some "bob", some 4⟩ emptyState =
      ({ emptyState with
          trackedEmails := [⟨"a", some "bob", some 4, 5, "9.9.9.9"⟩],
          sentFile := ["line"] },
       TrackResponse.ok "a") :=
  ⟨(c7_recordSent_spec (fun _ => "line") 5 "9.9.9.9"
      ⟨none, none, none⟩ emptyState).1.mpr (Or.inl rfl),
   (c7_recordSent_spec (fun _ => "line") 5 "9.9.9.9"
      ⟨some "a", some "bob", some 4⟩ emptyState).2.2 "a" rfl (by decide)⟩

/-- C10: a recent-opens query with an absent, non-numeric (`parseInt`
gives `NaN`, modelled as `none`) or zero window parameter falls back to
the 24-hour default, and a record is included exactly when its
`openedAt` is strictly more recent than `now` minus the window. -/
theorem c10_default_window (now : Int) (hoursParam : Option Int)
    (s : ServerState) (h : hoursParam = none ∨ hoursParam = some 0) :
    effectiveHours hoursParam = 24 ∧
    getRecentOpens now hoursParam s = getRecentOpens now (some 24) s ∧
    ∀ o, o ∈ getRecentOpens now hoursParam s ↔
      (o ∈ s.openedEmails ∧ now - 24 * 60 * 60 * 1000 < o.openedAt) := by
  have he : effectiveHours hoursParam = 24 := by
    rcases h with h | h <;> simp [effectiveHours, h]
  refine ⟨he, ?_, ?_⟩
  · simp only [getRecentOpens]
    rw [he]
    norm_num [effectiveHours]
  · intro o
    simp [getRecentOpens, he, List.mem_filter]

/-- A concrete store with one recent and one stale open, for the C10
witness. -/
def s10 : ServerState :=
  { trackedEmails := []
    openedEmails :=
      [{ trackingId := "a", recipient := none, openedAt := 90000000,
         userAgent := "ua", ipAddress := "1.1.1.1", referer := "r",
         headers := ⟨none, none, none⟩ },
       { trackingId := "b", recipient := none, openedAt := 1000,
         userAgent := "ua", ipAddress := "1.1.1.1", referer := "r",
         headers := ⟨none, none, none⟩ }]
    sentFile := []
    openFile := [] }

/-- C10, witness: at `now = 100000000` with an absent window parameter
the query behaves exactly like an explicit 24-hour one. -/
theorem c10_witness :
    getRecentOpens 100000000 none s10 = getRecentOpens 100000000 (some 24) s10 :=
  (c10_default_window 100000000 none s10 (Or.inl rfl)).2.1

/-- Number of stored OpenRecords for one `(trackingId, ipAddress)` dedup
pair. -/
def countOpens (s : ServerState) (tid ip : String) : Nat :=
  (s.openedEmails.filter (fun o => o.trackingId == tid && o.ipAddress == ip)).length

/-- Number of stored OpenRecords carrying one trackingId. -/
def countOpensFor (s : ServerState) (tid : String) : Nat :=
  (s.openedEmails.filter (fun o => o.trackingId == tid)).length

/-- A concrete store with three sent records and one open record, on
which the exact open-rate formula of C4 fails. -/
def statsState : ServerState :=
  { trackedEmails :=
      [⟨"a", none, none, 0, "ip"⟩, ⟨"b", none, none, 0, "ip"⟩,
       ⟨"c", none, none, 0, "ip"⟩],
    openedEmails := [⟨"a", none, 0, "ua", "1.1.1.1", "r", ⟨none, none, none⟩⟩],
    sentFile := [], openFile := [] }

/-- C4, counterexample.  With 3 sent records and 1 unique open, the code
reports `(1/3*100).toFixed(2) = 33.33`, which differs from the exact
`uniqueOpened / totalSent * 100 = 100/3` the claim states. -/
theorem c4_counterexample :
    (statsOf 0 statsState).openRate ≠
      ((statsOf 0 statsState).uniqueOpened : ℚ) /
        ((statsOf 0 statsState).totalTracked : ℚ) * 100 := by
  have h1 : (statsOf 0 statsState).openRate = 3333 / 100 := by
    norm_num [statsOf, statsState, toFixed2, round_eq]
  have h2 : (statsOf 0 statsState).uniqueOpened = 1 := by
    norm_num [statsOf, statsState]
  have h3 : (statsOf 0 statsState).totalTracked = 3 := by
    norm_num [statsOf, statsState]
  rw [h1, h2, h3]
  norm_num

/-- C4, amended: `stats()` returns `totalSent`, `totalOpened` and
`uniqueOpened` exactly as claimed (total sent view size, all accepted
opens including repeats from other IPs, number of distinct trackingIds),
and `openRate` is `uniqueOpened / totalSent * 100` ROUNDED TO TWO DECIMAL
PLACES (`toFixed(2)`), with `openRate = 0` when `totalSent = 0` — the
computation never divides by zero. -/
theorem c4_stats_spec (now : Int) (s : ServerState) :
    (statsOf now s).totalTracked = s.trackedEmails.length ∧
    (statsOf now s).totalOpened = s.openedEmails.length ∧
    (statsOf now s).uniqueOpened =
      (s.openedEmails.map (fun e => e.trackingId)).toFinset.card ∧
    (statsOf now s).openRate =
      (if s.trackedEmails.length = 0 then 0
       else toFixed2
         (((statsOf now s).uniqueOpened : ℚ) /
           (s.trackedEmails.length : ℚ) * 100)) := by
  refine ⟨rfl, rfl, ?_, ?_⟩
  · simp [statsOf, List.card_toFinset]
  · rcases Nat.eq_zero_or_pos s.trackedEmails.length with h | h
    · simp [statsOf, h]
    · simp [statsOf, h, h.ne']

/-- C2: from a state whose open view has no record yet for a trackingId
that refers to a stored sent record, two pixel requests with the same
`(trackingId, ip)` pair store exactly one OpenRecord (the second call
leaves the state unchanged), while a third request from a different IP
stores a second one; the requests' user agents (and all other headers)
are arbitrary and play no role in the deduplication. -/
theorem c2_dedup_by_ip (encodeOpen : OpenRecord → String)
    (now1 now2 now3 : Int) (ip1 ip2 : String)
    (req1 req2 req3 : OpenRequest) (tid : String) (s : ServerState)
    (h1 : req1.trackingId = tid) (h2 : req2.trackingId = tid)
    (h3 : req3.trackingId = tid)
    (hsent : ∃ e ∈ s.trackedEmails, e.id = tid)
    (hip : ip1 ≠ ip2)
    (hclean : ∀ o ∈ s.openedEmails, o.trackingId ≠ tid) :
    countOpens (trackPixel encodeOpen now1 ip1 req1 s).1 tid ip1 = 1 ∧
    (trackPixel encodeOpen now2 ip1 req2
        (trackPixel encodeOpen now1 ip1 req1 s).1).1
      = (trackPixel encodeOpen now1 ip1 req1 s).1 ∧
    countOpens (trackPixel encodeOpen now3 ip2 req3
        (trackPixel encodeOpen now2 ip1 req2
          (trackPixel encodeOpen now1 ip1 req1 s).1).1).1 tid ip1 = 1 ∧
    countOpens (trackPixel encodeOpen now3 ip2 req3
        (trackPixel encodeOpen now2 ip1 req2
          (trackPixel encodeOpen now1 ip1 req1 s).1).1).1 tid ip2 = 1 ∧
    countOpensFor (trackPixel encodeOpen now3 ip2 req3
        (trackPixel encodeOpen now2 ip1 req2
          (trackPixel encodeOpen now1 ip1 req1 s).1).1).1 tid = 2 := by
  subst h1
  obtain ⟨te, hte, hid⟩ := hsent
  have hsome : (List.find? (fun e => e.id == req1.trackingId)
      s.trackedEmails).isSome := by
    rw [List.find?_isSome]
    exact ⟨te, hte, by simp [hid]⟩
  obtain ⟨te1, hfind1⟩ := Option.isSome_iff_exists.mp hsome
  have hdup1 : s.openedEmails.find?
      (fun e => e.trackingId == req1.trackingId && e.ipAddress == ip1) = none := by
    rw [List.find?_eq_none]
    intro o ho
    simp only [Bool.and_eq_true, beq_iff_eq, not_and]
    exact fun hT _ => absurd hT (hclean o ho)
  have e1 := trackPixel_new encodeOpen now1 ip1 req1 s te1 hfind1 hdup1
  set A := openDataOf now1 ip1 req1 te1 with hA
  have hs1 : (trackPixel encodeOpen now1 ip1 req1 s).1
      = { s with openedEmails := s.openedEmails ++ [A],
                 openFile := s.openFile ++ [encodeOpen A] } := by
    rw [e1]
  have hfind2 : ({ s with
          openedEmails := s.openedEmails ++ [A],
          openFile := s.openFile ++ [encodeOpen A] } : ServerState).trackedEmails.find? (fun e => e.id == req2.trackingId)
      = some te1 := by
    simpa only [h2] using hfind1
  have hAP2 : (A.trackingId == req2.trackingId && A.ipAddress == ip1) = true := by
    simp [hA, openDataOf, h2]
  have hdup2 : ({ s with
          openedEmails := s.openedEmails ++ [A],
          openFile := s.openFile ++ [encodeOpen A] } : ServerState).openedEmails.find?
      (fun e => e.trackingId == req2.trackingId && e.ipAddress == ip1)
      = some A := by
    show (s.openedEmails ++ [A]).find? _ = some A
    rw [List.find?_append]
    have hnone : s.openedEmails.find?
        (fun e => e.trackingId == req2.trackingId && e.ipAddress == ip1)
        = none := by
      rw [List.find?_eq_none]
      intro o ho
      simp only [Bool.and_eq_true, beq_iff_eq, not_and, h2]
      exact fun hT _ => absurd hT (hclean o ho)
    rw [hnone]
    simp [List.find?, hAP2]
  have e2 := trackPixel_duplicate encodeOpen now2 ip1 req2 _ te1 A hfind2 hdup2
  have hs2 : (trackPixel encodeOpen now2 ip1 req2
      (trackPixel encodeOpen now1 ip1 req1 s).1).1
      = (trackPixel encodeOpen now1 ip1 req1 s).1 := by
    rw [hs1, e2, ← hs1]
  have hfind3 : ({ s with
          openedEmails := s.openedEmails ++ [A],
          openFile := s.openFile ++ [encodeOpen A] } : ServerState).trackedEmails.find? (fun e => e.id == req3.trackingId)
      = some te1 := by
    simpa only [h3] using hfind1
  have hdup3 : ({ s with
          openedEmails := s.openedEmails ++ [A],
          openFile := s.openFile ++ [encodeOpen A] } : ServerState).openedEmails.find?
      (fun e => e.trackingId == req3.trackingId && e.ipAddress == ip2)
      = none := by
    show (s.openedEmails ++ [A]).find? _ = none
    rw [List.find?_eq_none]
    intro o ho
    rcases List.mem_append.mp ho with ho | ho
    · simp only [Bool.and_eq_true, beq_iff_eq, not_and, h3]
      exact fun hT _ => absurd hT (hclean o ho)
    · have : o = A := List.mem_singleton.mp ho
      subst this
      simp [hA, openDataOf, hip]
  have e3 := trackPixel_new encodeOpen now3 ip2 req3 _ te1 hfind3 hdup3
  set B := openDataOf now3 ip2 req3 te1 with hB
  have hs3 : (trackPixel encodeOpen now3 ip2 req3
      (trackPixel encodeOpen now2 ip1 req2
        (trackPixel encodeOpen now1 ip1 req1 s).1).1).1
      = { s with openedEmails := (s.openedEmails ++ [A]) ++ [B],
                 openFile := (s.openFile ++ [encodeOpen A]) ++ [encodeOpen B] } := by
    rw [hs2, hs1, e3]
  have holdnil1 : s.openedEmails.filter
      (fun o => o.trackingId == req1.trackingId && o.ipAddress == ip1) = [] := by
    rw [List.filter_eq_nil_iff]
    intro o ho
    simp only [Bool.and_eq_true, beq_iff_eq, not_and]
    exact fun hT _ => absurd hT (hclean o ho)
  have holdnil2 : s.openedEmails.filter
      (fun o => o.trackingId == req1.trackingId && o.ipAddress == ip2) = [] := by
    rw [List.filter_eq_nil_iff]
    intro o ho
    simp only [Bool.and_eq_true, beq_iff_eq, not_and]
    exact fun hT _ => absurd hT (hclean o ho)
  have holdnilT : s.openedEmails.filter
      (fun o => o.trackingId == req1.trackingId) = [] := by
    rw [List.filter_eq_nil_iff]
    intro o ho
    simp only [beq_iff_eq]
    exact hclean o ho
  refine ⟨?_, hs2, ?_, ?_, ?_⟩
  · rw [hs1]
    simp [countOpens, List.filter_append, holdnil1, hA, openDataOf]
  · rw [hs3]
    simp [countOpens, List.filter_append, holdnil1, hA, hB, openDataOf,
      hip.symm, h3]
  · rw [hs3]
    simp [countOpens, List.filter_append, holdnil2, hA, hB, openDataOf,
      hip, h3]
  · rw [hs3]
    simp [countOpensFor, List.filter_append, holdnilT, hA, hB, openDataOf, h3]

/-- In a list whose `openedAt` values are pairwise nondecreasing, the
head's `openedAt` is minimal. -/
lemma head_openedAt_min {l : List OpenRecord}
    (hp : l.Pairwise (fun a b => a.openedAt ≤ b.openedAt)) (hne : l ≠ []) :
    ∀ o ∈ l, (l.head hne).openedAt ≤ o.openedAt := by
  cases l with
  | nil => exact absurd rfl hne
  | cons a t =>
    intro o ho
    rcases List.mem_cons.mp ho with rfl | ho
    · exact le_refl _
    · exact (List.pairwise_cons.mp hp).1 o ho

/-- In a list whose `openedAt` values are pairwise nondecreasing, the last
element's `openedAt` is maximal. -/
lemma getLast_openedAt_max : ∀ (l : List OpenRecord),
    l.Pairwise (fun a b => a.openedAt ≤ b.openedAt) → (hne : l ≠ []) →
    ∀ o ∈ l, o.openedAt ≤ (l.getLast hne).openedAt := by
  intro l
  induction l with
  | nil => intro _ hne; exact absurd rfl hne
  | cons a t ih =>
    intro hp hne o ho
    cases t with
    | nil =>
      have : o = a := List.mem_singleton.mp ho
      subst this
      exact le_refl _
    | cons b t' =>
      have hne' : b :: t' ≠ [] := by simp
      rw [List.getLast_cons hne']
      rcases List.mem_cons.mp ho with rfl | ho'
      · exact le_trans
          ((List.pairwise_cons.mp hp).1 _ (List.getLast_mem hne'))
          (le_refl _)
      · exact ih (List.pairwise_cons.mp hp).2 hne' o ho'

/-- Appending an open stamped at the current time keeps the open view in
chronological order: every state the server builds satisfies the order
hypothesis of the report theorem below, since `openedAt` is stamped from
the server's clock, which does not run backwards. -/
lemma trackPixel_preserves_sorted (encodeOpen : OpenRecord → String)
    (now : Int) (clientIP : String) (req : OpenRequest) (s : ServerState)
    (hs : s.openedEmails.Pairwise (fun a b => a.openedAt ≤ b.openedAt))
    (hnow : ∀ o ∈ s.openedEmails, o.openedAt ≤ now) :
    ((trackPixel encodeOpen now clientIP req s).1).openedEmails.Pairwise
      (fun a b => a.openedAt ≤ b.openedAt) := by
  unfold trackPixel
  cases hfind : s.trackedEmails.find? (fun e => e.id == req.trackingId) with
  | none => exact hs
  | some trackedEmail =>
    cases hdup : s.openedEmails.find?
        (fun e => e.trackingId == req.trackingId && e.ipAddress == clientIP) with
    | some _ => exact hs
    | none =>
      show (s.openedEmails ++ [openDataOf now clientIP req trackedEmail]).Pairwise _
      rw [List.pairwise_append]
      refine ⟨hs, List.pairwise_singleton _ _, ?_⟩
      intro a ha b hb
      rw [List.mem_singleton] at hb
      subst hb
      exact hnow a ha

/-- C5: for every sent record, the report pairs it with exactly the
stored opens whose `trackingId` equals its id and reports their number as
`openCount`; provided the open view is in chronological order (every
state the server builds is, since `openedAt` is stamped from the server's
clock at append time), `firstOpenedAt` is the earliest and `lastOpenedAt`
the latest `openedAt` among them, both are `null` when `openCount = 0`,
and `firstOpenedAt ≤ lastOpenedAt` whenever opens exist. -/
theorem c5_report_spec (s : ServerState) (email : SentRecord)
    (hsorted : s.openedEmails.Pairwise (fun a b => a.openedAt ≤ b.openedAt)) :
    (∀ o, o ∈ s.openedEmails.filter (fun opened => opened.trackingId == email.id)
      ↔ (o ∈ s.openedEmails ∧ o.trackingId = email.id)) ∧
    (reportEntry s email).openCount =
      (s.openedEmails.filter (fun opened => opened.trackingId == email.id)).length ∧
    (s.openedEmails.filter (fun opened => opened.trackingId == email.id) = [] →
      (reportEntry s email).firstOpenedAt = none ∧
      (reportEntry s email).lastOpenedAt = none) ∧
    (∀ hne : s.openedEmails.filter (fun opened => opened.trackingId == email.id) ≠ [],
      ∃ tf tl,
        (reportEntry s email).firstOpenedAt = some tf ∧
        (reportEntry s email).lastOpenedAt = some tl ∧
        tf ∈ (s.openedEmails.filter
          (fun opened => opened.trackingId == email.id)).map (fun o => o.openedAt) ∧
        tl ∈ (s.openedEmails.filter
          (fun opened => opened.trackingId == email.id)).map (fun o => o.openedAt) ∧
        (∀ t ∈ (s.openedEmails.filter
            (fun opened => opened.trackingId == email.id)).map (fun o => o.openedAt),
          tf ≤ t ∧ t ≤ tl) ∧
        tf ≤ tl) := by
  have hpf := List.Pairwise.filter
    (fun opened => opened.trackingId == email.id) hsorted
  refine ⟨?_, rfl, ?_, ?_⟩
  · intro o
    rw [List.mem_filter]
    simp
  · intro hnil
    simp [reportEntry, hnil]
  · intro hne
    refine ⟨((s.openedEmails.filter
        (fun opened => opened.trackingId == email.id)).head hne).openedAt,
      ((s.openedEmails.filter
        (fun opened => opened.trackingId == email.id)).getLast hne).openedAt,
      ?_, ?_, ?_, ?_, ?_, ?_⟩
    · have hrfl : (reportEntry s email).firstOpenedAt
          = ((s.openedEmails.filter
              (fun opened => opened.trackingId == email.id)).head?).map
            (fun o => o.openedAt) := rfl
      rw [hrfl, List.head?_eq_head hne]
      rfl
    · have hrfl : (reportEntry s email).lastOpenedAt
          = ((s.openedEmails.filter
              (fun opened => opened.trackingId == email.id)).getLast?).map
            (fun o => o.openedAt) := rfl
      rw [hrfl, List.getLast?_eq_getLast _ hne]
      rfl
    · exact List.mem_map_of_mem _ (List.head_mem hne)
    · exact List.mem_map_of_mem _ (List.getLast_mem hne)
    · intro t ht
      obtain ⟨o, ho, rfl⟩ := List.mem_map.mp ht
      exact ⟨head_openedAt_min hpf hne o ho, getLast_openedAt_max _ hpf hne o ho⟩
    · exact le_trans
        (head_openedAt_min hpf hne _ (List.getLast_mem hne))
        (le_refl _)

/-- Loading distributes over file concatenation. -/
lemma loadData_append {R : Type} (parse : String → Option R)
    (l1 l2 : List String) :
    loadData parse (l1 ++ l2) = loadData parse l1 ++ loadData parse l2 := by
  simp [loadData, List.filter_append, List.map_append, List.reduceOption_append]

/-- Loading lines that each round-trip through the codec recovers exactly
the encoded records, in order. -/
lemma loadData_encoded {R : Type} (parse : String → Option R)
    (enc : R → String) (rs : List R)
    (h : ∀ r ∈ rs, parse (enc r) = some r ∧ jsTrim (enc r) ≠ "") :
    loadData parse (rs.map enc) = rs := by
  induction rs with
  | nil => rfl
  | cons a t ih =>
    obtain ⟨hpa, hta⟩ := h a (List.mem_cons_self a t)
    have ht := fun r hr => h r (List.mem_cons_of_mem a hr)
    have step : loadData parse (List.map enc (a :: t))
        = a :: loadData parse (List.map enc t) := by
      simp [loadData, List.filter_cons, hta, hpa]
    rw [step, ih ht]

/-- Lines that are blank or fail to parse are all skipped. -/
lemma loadData_junk {R : Type} (parse : String → Option R)
    (junk : List String)
    (h : ∀ j ∈ junk, jsTrim j = "" ∨ parse j = none) :
    loadData parse junk = [] := by
  induction junk with
  | nil => rfl
  | cons a t ih =>
    have ht := fun r hr => h r (List.mem_cons_of_mem a hr)
    have step : loadData parse (a :: t) = loadData parse t := by
      rcases h a (List.mem_cons_self a t) with ha | ha
      · simp [loadData, List.filter_cons, ha]
      · by_cases hb : jsTrim a = ""
        · simp [loadData, List.filter_cons, hb]
        · simp [loadData, List.filter_cons, hb, ha]
    rw [step, ih ht]

/-- A persisted file of arbitrary shape: each line is either the encoding
of a record (`Sum.inl`) or an arbitrary junk line (`Sum.inr`) — blank,
corrupt or partial — at any position in the file. -/
def fileLines {R : Type} (enc : R → String) (entries : List (R ⊕ String)) :
    List String :=
  entries.map (Sum.elim enc id)

/-- The records a file's entries carry, in their original order. -/
def fileRecords {R : Type} (entries : List (R ⊕ String)) : List R :=
  entries.filterMap (Sum.elim some (fun _ => none))

/-- Loading a file whose encoded lines round-trip and whose junk lines
are blank or unparseable yields exactly the carried records in order, no
matter where the junk lines sit. -/
lemma loadData_interleaved {R : Type} (parse : String → Option R)
    (enc : R → String) (entries : List (R ⊕ String))
    (h : ∀ e ∈ entries,
      Sum.elim (fun r => parse (enc r) = some r ∧ jsTrim (enc r) ≠ "")
        (fun j => jsTrim j = "" ∨ parse j = none) e) :
    loadData parse (fileLines enc entries) = fileRecords entries := by
  induction entries with
  | nil => rfl
  | cons e t ih =>
    have ht := fun x hx => h x (List.mem_cons_of_mem e hx)
    have he := h e (List.mem_cons_self e t)
    cases e with
    | inl r =>
      obtain ⟨hpa, hta⟩ := he
      have step : loadData parse (fileLines enc (Sum.inl r :: t))
          = r :: loadData parse (fileLines enc t) := by
        simp [loadData, fileLines, List.filter_cons, hta, hpa]
      rw [step, ih ht]
      rfl
    | inr j =>
      have step : loadData parse (fileLines enc (Sum.inr j :: t))
          = loadData parse (fileLines enc t) := by
        rcases he with hb | hb
        · simp [loadData, fileLines, List.filter_cons, hb]
        · by_cases hbb : jsTrim j = ""
          · simp [loadData, fileLines, List.filter_cons, hbb]
          · simp [loadData, fileLines, List.filter_cons, hbb, hb]
      rw [step, ih ht]
      rfl

/-- C6: for every persisted log file content — any interleaving of
parseable lines with blank, corrupt or partial ones, junk anywhere in the
file — loading on startup yields exactly the records of the parseable
lines in their original append order, silently skipping every line that
fails to parse without aborting the load; consequently the statistics of
the reloaded store equal those of any pre-restart store holding the same
N sent and M open records. -/
theorem c6_load_roundtrip (parseSent : String → Option SentRecord)
    (encodeSent : SentRecord → String)
    (parseOpen : String → Option OpenRecord)
    (encodeOpen : OpenRecord → String)
    (sentEntries : List (SentRecord ⊕ String))
    (openEntries : List (OpenRecord ⊕ String))
    (hS : ∀ e ∈ sentEntries,
      Sum.elim (fun r => parseSent (encodeSent r) = some r
          ∧ jsTrim (encodeSent r) ≠ "")
        (fun j => jsTrim j = "" ∨ parseSent j = none) e)
    (hO : ∀ e ∈ openEntries,
      Sum.elim (fun r => parseOpen (encodeOpen r) = some r
          ∧ jsTrim (encodeOpen r) ≠ "")
        (fun j => jsTrim j = "" ∨ parseOpen j = none) e) :
    (loadServerState parseSent parseOpen
        (fileLines encodeSent sentEntries)
        (fileLines encodeOpen openEntries)).trackedEmails
      = fileRecords sentEntries ∧
    (loadServerState parseSent parseOpen
        (fileLines encodeSent sentEntries)
        (fileLines encodeOpen openEntries)).openedEmails
      = fileRecords openEntries ∧
    ∀ (now : Int) (pre : ServerState),
      pre.trackedEmails = fileRecords sentEntries →
      pre.openedEmails = fileRecords openEntries →
      statsOf now (loadServerState parseSent parseOpen
        (fileLines encodeSent sentEntries)
        (fileLines encodeOpen openEntries)) = statsOf now pre := by
  have hT := loadData_interleaved parseSent encodeSent sentEntries hS
  have hP := loadData_interleaved parseOpen encodeOpen openEntries hO
  refine ⟨hT, hP, ?_⟩
  intro now pre hpre1 hpre2
  simp [statsOf, loadServerState, hT, hP, hpre1, hpre2]

/-- C8: a successful `clearAll` leaves both in-memory views empty and
both persisted logs truncated to empty, `stats()` reports zero for all
counters, and reloading from the now-empty logs yields an empty store. -/
theorem c8_clear_success (nodeEnv : String) (authHeader : Option String)
    (sentTruncOk openTruncOk : Bool) (s : ServerState)
    (h : (clearAll nodeEnv authHeader sentTruncOk openTruncOk s).2
      = ClearResponse.success) :
    (clearAll nodeEnv authHeader sentTruncOk openTruncOk s).1 = emptyState ∧
    (∀ now : Int, statsOf now
        (clearAll nodeEnv authHeader sentTruncOk openTruncOk s).1
      = { totalTracked := 0, totalOpened := 0, uniqueOpened := 0,
          openRate := 0, recentOpens := 0 }) ∧
    ∀ (parseSent : String → Option SentRecord)
      (parseOpen : String → Option OpenRecord),
      loadServerState parseSent parseOpen
        (clearAll nodeEnv authHeader sentTruncOk openTruncOk s).1.sentFile
        (clearAll nodeEnv authHeader sentTruncOk openTruncOk s).1.openFile
      = emptyState := by
  have hstate : (clearAll nodeEnv authHeader sentTruncOk openTruncOk s).1
      = emptyState := by
    unfold clearAll at h ⊢
    by_cases hcond : (nodeEnv = "production" && badAuth authHeader : Bool) = true
    · rw [if_pos hcond] at h
      simp at h
    · rw [if_neg hcond] at h ⊢
      cases sentTruncOk with
      | false => simp at h
      | true =>
        cases openTruncOk with
        | false => simp at h
        | true => rfl
  refine ⟨hstate, ?_, ?_⟩
  · intro now
    rw [hstate]
    rfl
  · intro parseSent parseOpen
    rw [hstate]
    rfl

/-- C8, witness: a concrete successful clear of the three-sent one-open
store. -/
theorem c8_witness :
    (clearAll "development" none true true statsState).1 = emptyState :=
  (c8_clear_success "development" none true true statsState rfl).1

/-- C9: when the auth check passes but a log truncation fails, `clearAll`
reports an error to the caller while both in-memory views are already
empty, and the not-yet-truncated file keeps its old content: the clear is
not atomic with respect to persistence failure (no rollback of the view
reset). -/
theorem c9_clear_not_atomic (nodeEnv : String) (authHeader : Option String)
    (sentTruncOk openTruncOk : Bool) (s : ServerState)
    (hauth : (nodeEnv = "production" && badAuth authHeader) = false)
    (hfail : sentTruncOk = false ∨ openTruncOk = false) :
    (clearAll nodeEnv authHeader sentTruncOk openTruncOk s).2
      = ClearResponse.error ∧
    (clearAll nodeEnv authHeader sentTruncOk openTruncOk s).1.trackedEmails = [] ∧
    (clearAll nodeEnv authHeader sentTruncOk openTruncOk s).1.openedEmails = [] ∧
    (sentTruncOk = false →
      (clearAll nodeEnv authHeader sentTruncOk openTruncOk s).1.sentFile
          = s.sentFile ∧
      (clearAll nodeEnv authHeader sentTruncOk openTruncOk s).1.openFile
          = s.openFile) ∧
    (sentTruncOk = true → openTruncOk = false →
      (clearAll nodeEnv authHeader sentTruncOk openTruncOk s).1.openFile
        = s.openFile) := by
  unfold clearAll
  rw [hauth]
  rcases hfail with hf | hf
  · subst hf
    simp
  · subst hf
    cases sentTruncOk <;> simp

/-- C9, witness: clearing the three-sent one-open store while the open
log's truncation fails reports an error with the views already empty and
the open log untouched. -/
theorem c9_witness :
    (clearAll "development" none true false statsState).2
      = ClearResponse.error ∧
    (clearAll "development" none true false statsState).1.trackedEmails = [] ∧
    (clearAll "development" none true false statsState).1.openedEmails = [] ∧
    (clearAll "development" none true false statsState).1.openFile
      = statsState.openFile := by
  have h := c9_clear_not_atomic "development" none true false statsState
    rfl (Or.inr rfl)
  exact ⟨h.1, h.2.1, h.2.2.1, h.2.2.2.2 rfl rfl⟩

/-- A concrete sent record with id `"m"`, for the witness scenarios. -/
def sentM : SentRecord := ⟨"m", some "bob", some 1, 1, "ip0"⟩

/-- A store holding only `sentM`. -/
def baseState : ServerState := ⟨[sentM], [], [], []⟩

/-- An open request for `"m"` from one email client. -/
def reqM1 : OpenRequest := ⟨"m", some "ua1", none, none, none, none⟩

/-- An open request for `"m"` from a different email client (different
user agent). -/
def reqM2 : OpenRequest := ⟨"m", some "ua2", none, none, none, none⟩

/-- A concrete stand-in for `JSON.stringify` on open records. -/
def encodeOpenW : OpenRecord → String := fun r => r.trackingId ++ r.ipAddress

/-- The store after one open of `"m"` from IP 1.1.1.1 at time 10. -/
def chain1 : ServerState := (trackPixel encodeOpenW 10 "1.1.1.1" reqM1 baseState).1

/-- The store after a second open of `"m"` from the same IP (different
user agent) at time 20. -/
def chain2 : ServerState := (trackPixel encodeOpenW 20 "1.1.1.1" reqM2 chain1).1

/-- The store after a third open of `"m"` from IP 2.2.2.2 at time 30. -/
def chain3 : ServerState := (trackPixel encodeOpenW 30 "2.2.2.2" reqM2 chain2).1

/-- C2, witness: the dedup theorem instantiated on the concrete
three-open scenario (same pair twice, then a second IP), with the second
request carrying a different user agent. -/
theorem c2_witness :
    countOpens chain1 "m" "1.1.1.1" = 1 ∧
    chain2 = chain1 ∧
    countOpens chain3 "m" "1.1.1.1" = 1 ∧
    countOpens chain3 "m" "2.2.2.2" = 1 ∧
    countOpensFor chain3 "m" = 2 :=
  c2_dedup_by_ip encodeOpenW 10 20 30 "1.1.1.1" "2.2.2.2" reqM1 reqM2 reqM2
    "m" baseState rfl rfl rfl
    ⟨sentM, by simp [baseState], rfl⟩ (by decide) (by simp [baseState])

/-- C5, witness: the report theorem instantiated on the concrete store
with three opens of `"m"` from two distinct IPs (one IP twice): the
dedup policy keeps two opens, with first and last observation times 10
and 30. -/
theorem c5_witness :
    (reportEntry chain3 sentM).openCount
      = (chain3.openedEmails.filter
          (fun opened => opened.trackingId == sentM.id)).length ∧
    (reportEntry chain3 sentM).openCount = 2 ∧
    (reportEntry chain3 sentM).firstOpenedAt = some 10 ∧
    (reportEntry chain3 sentM).lastOpenedAt = some 30 := by
  have h := c5_report_spec chain3 sentM (by decide)
  exact ⟨h.2.1, by decide, by decide, by decide⟩

/-- A concrete sent record for the reload scenario. -/
def sentA : SentRecord := ⟨"a", none, none, 0, "ip"⟩

/-- A second concrete sent record appended after a torn write. -/
def sentB : SentRecord := ⟨"b", none, none, 7, "ip"⟩

/-- A concrete open record for the reload scenario. -/
def openA : OpenRecord := ⟨"a", none, 5, "ua", "1.1.1.1", "r", ⟨none, none, none⟩⟩

/-- A concrete stand-in for `JSON.stringify` on sent records. -/
def encodeSentW : SentRecord → String := fun r => String.append "S" r.id

/-- The matching concrete stand-in for `JSON.parse` on sent-log lines. -/
def parseSentW : String → Option SentRecord :=
  fun l => if l = "Sa" then some sentA else if l = "Sb" then some sentB else none

/-- A concrete stand-in for `JSON.stringify` on open records (reload
scenario). -/
def encodeOpenV : OpenRecord → String := fun _ => "openline"

/-- The matching concrete stand-in for `JSON.parse` on open-log lines. -/
def parseOpenV : String → Option OpenRecord :=
  fun l => if l = "openline" then some openA else none

/-- The sent log of the reload scenario: a corrupt (partial) line sits
BETWEEN the two parseable records, and a blank line trails. -/
def sentLogEntries : List (SentRecord ⊕ String) :=
  [Sum.inl sentA, Sum.inr "garbage", Sum.inl sentB, Sum.inr ""]

/-- The open log of the reload scenario: a corrupt line precedes the one
parseable record. -/
def openLogEntries : List (OpenRecord ⊕ String) :=
  [Sum.inr "garbage", Sum.inl openA]

/-- C6, witness: both sent records survive a reload in order, with a
corrupt line interleaved between them, a trailing blank sent-log line and
a leading corrupt open-log line all skipped, and the reloaded statistics
match the pre-restart store's. -/
theorem c6_witness :
    (loadServerState parseSentW parseOpenV
        (fileLines encodeSentW sentLogEntries)
        (fileLines encodeOpenV openLogEntries)).trackedEmails
      = [sentA, sentB] ∧
    (loadServerState parseSentW parseOpenV
        (fileLines encodeSentW sentLogEntries)
        (fileLines encodeOpenV openLogEntries)).openedEmails = [openA] ∧
    statsOf 0 (loadServerState parseSentW parseOpenV
        (fileLines encodeSentW sentLogEntries)
        (fileLines encodeOpenV openLogEntries))
      = statsOf 0 ⟨[sentA, sentB], [openA], [], []⟩ := by
  have hS : ∀ e ∈ sentLogEntries,
      Sum.elim (fun r => parseSentW (encodeSentW r) = some r
          ∧ jsTrim (encodeSentW r) ≠ "")
        (fun j => jsTrim j = "" ∨ parseSentW j = none) e := by
    intro e he
    simp only [sentLogEntries, List.mem_cons, List.not_mem_nil, or_false] at he
    rcases he with rfl | rfl | rfl | rfl <;> simp only [Sum.elim] <;> decide
  have hO : ∀ e ∈ openLogEntries,
      Sum.elim (fun r => parseOpenV (encodeOpenV r) = some r
          ∧ jsTrim (encodeOpenV r) ≠ "")
        (fun j => jsTrim j = "" ∨ parseOpenV j = none) e := by
    intro e he
    simp only [openLogEntries, List.mem_cons, List.not_mem_nil, or_false] at he
    rcases he with rfl | rfl <;> simp only [Sum.elim] <;> decide
  have h := c6_load_roundtrip parseSentW encodeSentW parseOpenV encodeOpenV
    sentLogEntries openLogEntries hS hO
  exact ⟨h.1, h.2.1, h.2.2 0 ⟨[sentA, sentB], [openA], [], []⟩ rfl rfl⟩

end MailTracker
